import Mathlib

/-!
Shallow embedding of the SkillSync backend (Node.js + Express + Prisma), covering
the reputation service (`src/services/reputation.service.js`), the project
controller (`src/controllers/project.controller.js`), the socket hub
(`src/socket/socket.js`), the notification controller
(`src/controllers/notification.controller.js`) and the matching logic
(`src/controllers/user.controller.js`, `src/services/matching.service.js`).

Database rows become Lean structures, the Prisma store becomes explicit state,
ids are `String`, JS numbers on the integer paths become `Int`, and each
`await`ed store operation is one explicit state transformer so that
interrupted executions (a crash between two awaits) are expressible.
-/

namespace SkillSync

/-- JS `String.prototype.startsWith`, via the character list of the string. -/
def strStartsWith (s pre : String) : Bool :=
  List.isPrefixOf pre.data s.data

/-- Whitespace characters stripped by JS `String.prototype.trim` (ASCII cases). -/
def isJsWs (c : Char) : Bool :=
  c = ' ' ∨ c = '\t' ∨ c = '\n' ∨ c = '\r'

/-- JS `String.prototype.trim`: drop whitespace from both ends. -/
def jsTrim (s : String) : String :=
  String.mk (((s.data.dropWhile isJsWs).reverse.dropWhile isJsWs).reverse)

/-- JS `Math.max` on integers. -/
def jsMax (a b : Int) : Int :=
  if a < b then b else a

/-! ## Reputation service (`reputation.service.js`) -/

/-- One row of the `reputationLog` table, as created by `rateTeammate`:
`{ userId, projectId, change, reason }`.  Note that the rater is recorded
only inside the free-text `reason`, not as a column. -/
structure RepEntry where
  userId : String
  projectId : String
  change : Int
  reason : String
deriving DecidableEq

/-- The store state touched by the reputation service: each user's
`reputationScore` and the `reputationLog` table. -/
structure RepState where
  score : String → Int
  log : List RepEntry

/-- The prefix used by the duplicate check:
`` `Rating from user ${raterId}` ``. -/
def ratingPrefixOf (raterId : String) : String :=
  "Rating from user " ++ raterId

/-- The stored reason text: `` `Rating from user ${raterId}: ${rating}/5` ``. -/
def ratingReason (raterId : String) (rating : Int) : String :=
  ratingPrefixOf raterId ++ (": " ++ toString rating ++ "/5")

/-- The `findFirst` duplicate-rating check of `rateTeammate`:
an existing log row with this `userId`, this `projectId`, and a `reason`
starting with `` `Rating from user ${raterId}` ``. -/
def hasExistingRating (log : List RepEntry) (raterId ratedUserId projectId : String) : Bool :=
  log.any fun e =>
    e.userId == ratedUserId && e.projectId == projectId &&
      strStartsWith e.reason (ratingPrefixOf raterId)

/-- The adjustment computation of `rateTeammate` (`rating < 2 → −15`,
`≤ 3 → −5`, `≤ 4 → +5`, else `+10`). -/
def adjustmentFor (rating : Int) : Int :=
  if rating < 2 then -15
  else if rating ≤ 3 then -5
  else if rating ≤ 4 then 5
  else 10

/-- Store effect of `prisma.user.update` with `reputationScore: { increment: adjustment }`. -/
def effIncrement (ratedUserId : String) (adjustment : Int) (s : RepState) : RepState :=
  { s with score := Function.update s.score ratedUserId (s.score ratedUserId + adjustment) }

/-- Store effect of the follow-up clamp: if the just-updated score is negative,
a second `prisma.user.update` sets it to `0`. -/
def effClamp (ratedUserId : String) (s : RepState) : RepState :=
  if s.score ratedUserId < 0 then
    { s with score := Function.update s.score ratedUserId 0 }
  else s

/-- Store effect of `prisma.reputationLog.create`. -/
def effLog (ratedUserId projectId : String) (adjustment : Int) (reason : String)
    (s : RepState) : RepState :=
  { s with log := s.log ++ [⟨ratedUserId, projectId, adjustment, reason⟩] }

/-- Errors thrown by `rateTeammate` before any store write. -/
inductive RepError where
  | validationError
  | conflict
deriving DecidableEq

/-- The object returned by a successful `rateTeammate` call. -/
structure RateResult where
  message : String
  adjustment : Int
  newReputation : Int
deriving DecidableEq

/-- `rateTeammate(raterId, ratedUserId, projectId, rating)`, full uninterrupted run:
validate the rating, run the duplicate check, then perform the three separate
store writes (increment, clamp, log append) and return the result object, whose
`newReputation` is `Math.max(0, updatedUser.reputationScore + adjustment)` with
`updatedUser.reputationScore` the already-incremented value. -/
def rateTeammate (s : RepState) (raterId ratedUserId projectId : String)
    (rating : Int) : Except RepError (RepState × RateResult) :=
  if rating < 1 ∨ 5 < rating then .error .validationError
  else if hasExistingRating s.log raterId ratedUserId projectId then .error .conflict
  else
    let adjustment := adjustmentFor rating
    let updatedScore := s.score ratedUserId + adjustment
    let s1 := effIncrement ratedUserId adjustment s
    let s2 := effClamp ratedUserId s1
    let s3 := effLog ratedUserId projectId adjustment (ratingReason raterId rating) s2
    .ok (s3, { message := "Rating recorded successfully",
               adjustment := adjustment,
               newReputation := jsMax 0 (updatedScore + adjustment) })

/-- The store state after the first `k` of the three separate writes of a
`rateTeammate` call (`k = 0`: none yet; `1`: score incremented; `2`: clamp
applied; `≥ 3`: log row appended).  A call that throws in validation or in the
duplicate check performs no write for any `k`. -/
def rateTeammateUpTo (k : Nat) (s : RepState) (raterId ratedUserId projectId : String)
    (rating : Int) : RepState :=
  if rating < 1 ∨ 5 < rating then s
  else if hasExistingRating s.log raterId ratedUserId projectId then s
  else
    let adjustment := adjustmentFor rating
    let s1 := effIncrement ratedUserId adjustment s
    let s2 := effClamp ratedUserId s1
    let s3 := effLog ratedUserId projectId adjustment (ratingReason raterId rating) s2
    match k with
    | 0 => s
    | 1 => s1
    | 2 => s2
    | _ => s3

/-! ## Project controller (`project.controller.js`) -/

/-- Project status, stored as `'active'` / `'completed'` strings in Prisma. -/
inductive PStatus where
  | active
  | completed
deriving DecidableEq

/-- One row of the `project` table (the fields used by the controller). -/
structure Project where
  id : String
  createdBy : String
  status : PStatus
  title : String
  description : String
  domain : String
deriving DecidableEq

/-- One row of the `projectMember` table: a `(projectId, userId)` membership
with a `role` of `'leader'` or `'member'`. -/
structure Membership where
  projectId : String
  userId : String
  role : String
deriving DecidableEq

/-- The store state touched by the project controller: each user's
`activeProjectCount` and the `project` / `projectMember` tables. -/
structure ProjState where
  activeProjectCount : String → Int
  projects : List Project
  members : List Membership

/-- The distinct error responses of the project controller. -/
inductive ProjErr where
  | missingFields
  | capacityExceeded
  | notFoundOrNotActive
  | alreadyMember
  | notFound
  | forbidden
  | alreadyCompleted
  | serverError
deriving DecidableEq

/-- `createProject`: reject missing fields (JS falsiness of the raw strings),
then reject with the cap error when `activeProjectCount >= 2`; on success
create the project (status `'active'`, trimmed fields), the `'leader'`
membership, and increment the creator's count.  Errors return before any
store write, so they leave the state unchanged. -/
def createProject (s : ProjState) (userId : String)
    (title description domain newProjectId : String) : ProjState × Option ProjErr :=
  if title = "" ∨ description = "" ∨ domain = "" then (s, some .missingFields)
  else if 2 ≤ s.activeProjectCount userId then (s, some .capacityExceeded)
  else
    let p : Project := ⟨newProjectId, userId, .active, jsTrim title, jsTrim description,
      jsTrim domain⟩
    ({ s with
        projects := s.projects ++ [p],
        members := s.members ++ [⟨newProjectId, userId, "leader"⟩],
        activeProjectCount :=
          Function.update s.activeProjectCount userId (s.activeProjectCount userId + 1) },
     none)

/-- `joinProject`: reject a missing `projectId`, then the cap
(`activeProjectCount >= 2`), then an absent or non-active project, then a
duplicate membership; on success create the `'member'` membership and
increment the count.  Errors return before any store write. -/
def joinProject (s : ProjState) (userId projectId : String) : ProjState × Option ProjErr :=
  if projectId = "" then (s, some .missingFields)
  else if 2 ≤ s.activeProjectCount userId then (s, some .capacityExceeded)
  else
    match s.projects.find? (fun p => p.id == projectId) with
    | none => (s, some .notFoundOrNotActive)
    | some p =>
      if p.status ≠ .active then (s, some .notFoundOrNotActive)
      else if s.members.any (fun m => m.projectId == projectId && m.userId == userId) then
        (s, some .alreadyMember)
      else
        ({ s with
            members := s.members ++ [⟨projectId, userId, "member"⟩],
            activeProjectCount :=
              Function.update s.activeProjectCount userId (s.activeProjectCount userId + 1) },
         none)

/-- The single `prisma.$transaction` of `completeProject`: set the project's
status to `'completed'` and run one decrement per membership row of the
project, all as one atomic store step. -/
def completeTxn (s : ProjState) (projectId : String) : ProjState :=
  { s with
      projects := s.projects.map fun q =>
        if q.id == projectId then { q with status := .completed } else q,
      activeProjectCount := fun u =>
        s.activeProjectCount u -
          (((s.members.filter fun m => m.projectId == projectId).filter
              fun m => m.userId == u).length : Int) }

/-- `completeProject(requesterId, projectId)` with an explicit interruption
flag: after the checks (missing id, absent project, non-creator requester,
already completed) the whole effect is the one `prisma.$transaction`; an
execution interrupted (or erroring) before that transaction commits leaves
the state exactly as it was and surfaces the catch-all 500. -/
def completeProjectRun (s : ProjState) (requesterId projectId : String)
    (interrupted : Bool) : ProjState × Option ProjErr :=
  if projectId = "" then (s, some .missingFields)
  else
    match s.projects.find? (fun p => p.id == projectId) with
    | none => (s, some .notFound)
    | some p =>
      if p.createdBy ≠ requesterId then (s, some .forbidden)
      else if p.status = .completed then (s, some .alreadyCompleted)
      else if interrupted then (s, some .serverError)
      else (completeTxn s projectId, none)

/-! ## Socket hub (`socket.js`): presence registry, messaging, notifications -/

/-- Lookup in a JS `Map` (modelled as an association list): `m.get(k)`. -/
def mapGet (m : List (String × String)) (k : String) : Option String :=
  (m.find? fun e => e.1 == k).map fun e => e.2

/-- JS `Map.prototype.set`: replace the entry for the key, or append one. -/
def mapSet (m : List (String × String)) (k v : String) : List (String × String) :=
  match m with
  | [] => [(k, v)]
  | e :: rest => if e.1 == k then (k, v) :: rest else e :: mapSet rest k v

/-- JS `Map.prototype.delete`: drop the entry for the key. -/
def mapDel (m : List (String × String)) (k : String) : List (String × String) :=
  m.filter fun e => !(e.1 == k)

/-- The hub's mutable state: the `onlineUsers` map (`userId → socket.id`),
each socket's `socket.userId` assignment (set by `authenticate`), and the set
of currently connected socket ids.  Room membership for `` `user:${userId}` ``
is represented by a live socket's `userId` assignment. -/
structure Hub where
  onlineUsers : List (String × String)
  socketUser : List (String × String)
  live : List String

/-- A new socket connection (before any `authenticate`). -/
def connectSock (h : Hub) (sid : String) : Hub :=
  { h with live := h.live ++ [sid] }

/-- The `authenticate` handler after a successful token verification yielding
`userId`: set `socket.userId`, put the socket into the `onlineUsers` map
(last authenticate wins), and join the user's personal room. -/
def authenticate (h : Hub) (sid userId : String) : Hub :=
  { h with
      socketUser := mapSet h.socketUser sid userId,
      onlineUsers := mapSet h.onlineUsers userId sid }

/-- The `disconnect` handler: if the socket had authenticated as some user,
delete that user's entry from `onlineUsers` — unconditionally, without
checking that the map still points at this very socket; the socket itself
leaves the live set either way. -/
def disconnectSock (h : Hub) (sid : String) : Hub :=
  match mapGet h.socketUser sid with
  | some userId =>
      { h with
          onlineUsers := mapDel h.onlineUsers userId,
          live := h.live.filter fun x => !(x == sid) }
  | none => { h with live := h.live.filter fun x => !(x == sid) }

/-- Delivery of an event to a user, as guarded in the handlers: look the user
up in `onlineUsers`; if present, emit to the room `` `user:${userId}` ``
(the live sockets authenticated as that user); otherwise emit to nothing. -/
def deliver (h : Hub) (userId : String) : List String :=
  match mapGet h.onlineUsers userId with
  | some _ => h.live.filter fun sid => mapGet h.socketUser sid == some userId
  | none => []

/-- One row of the `message` table. -/
structure ChatMsg where
  id : String
  senderId : String
  receiverId : String
  content : String
  isRead : Bool
deriving DecidableEq

/-- What the `markAsRead` handler emits back. -/
inductive MarkOutcome where
  | readConfirmed (receiptTo : Option String)
  | errorEmitted
deriving DecidableEq

/-- The `markAsRead` handler: `prisma.message.update({ where: { id: messageId },
data: { isRead: true } })` — the `where` clause is the message id alone, the
caller (`readerId`) is never compared with the message's receiver.  A missing
id makes the update throw, caught as the `'error'` emit; otherwise the flag is
set and a read receipt goes to the sender when online. -/
def markAsRead (msgs : List ChatMsg) (onlineUsers : List (String × String))
    (messageId readerId : String) : List ChatMsg × MarkOutcome :=
  match msgs.find? (fun m => m.id == messageId) with
  | none => (msgs, .errorEmitted)
  | some m =>
    (msgs.map fun x => if x.id == messageId then { x with isRead := true } else x,
     .readConfirmed (if (mapGet onlineUsers m.senderId).isSome then some m.senderId else none))

/-- One row of the `notification` table. -/
structure Notif where
  userId : String
  type : String
  title : String
  message : String
  isRead : Bool
deriving DecidableEq

/-- JS `type.replace('_', ' ')`: string-pattern `replace` rewrites only the
first occurrence. -/
def replaceFirstUnderscore : List Char → List Char
  | [] => []
  | c :: cs => if c = '_' then ' ' :: cs else c :: replaceFirstUnderscore cs

/-- The derived notification title of `socket.js`:
`` type.replace('_', ' ').toUpperCase() ``. -/
def notifTitle (type : String) : String :=
  String.mk ((replaceFirstUnderscore type.data).map Char.toUpper)

/-- `createNotification` of `notification.controller.js`: persist the row;
on a store failure log and return `null` — the comment in the source reads
`Do NOT throw – notifications are non-critical`. -/
def createNotificationCtrl (storeOk : Bool) (notifs : List Notif)
    (userId type title message : String) : List Notif × Option Notif :=
  if storeOk then
    let n : Notif := ⟨userId, type, title, message, false⟩
    (notifs ++ [n], some n)
  else (notifs, none)

/-- `createNotification` of `socket.js`: persist the row and emit it; on a
store failure log the error and then `throw error` — the exception is
re-raised to the caller. -/
def createNotificationSock (storeOk : Bool) (notifs : List Notif)
    (userId type message : String) : Except String (List Notif × Notif) :=
  if storeOk then
    let n : Notif := ⟨userId, type, notifTitle type, message, false⟩
    .ok (notifs ++ [n], n)
  else .error "Notification creation error"

/-- The events observed by the client after a `sendMessage` call. -/
structure SendOutcome where
  ackSent : Bool
  errorSent : Bool
  deliveredTo : Option String
deriving DecidableEq

/-- The store state touched by the messaging handlers. -/
structure SockState where
  messages : List ChatMsg
  notifs : List Notif
  onlineUsers : List (String × String)

/-- The `sendMessage` handler: validate (`socket.userId` set, receiver id and
trimmed content non-empty), persist the message, emit `newMessage` to the
receiver when online and the `messageSent` ack to the sender, then `await`
the socket-level `createNotification` inside the same `try`: when the
notification store fails, the re-raised exception lands in the `catch`, which
emits `'error'` (`Failed to send message`) to the sender — after the message
was persisted and the ack already sent. -/
def sendMessage (s : SockState) (senderId : Option String)
    (receiverId content : String) (notifStoreOk : Bool)
    (newMessageId senderName : String) : SockState × SendOutcome :=
  match senderId with
  | none => (s, ⟨false, true, none⟩)
  | some sid =>
    if receiverId = "" ∨ jsTrim content = "" then (s, ⟨false, true, none⟩)
    else
      let msg : ChatMsg := ⟨newMessageId, sid, receiverId, jsTrim content, false⟩
      let s1 : SockState := { s with messages := s.messages ++ [msg] }
      let delivered := if (mapGet s.onlineUsers receiverId).isSome then some receiverId else none
      match createNotificationSock notifStoreOk s1.notifs receiverId "message_received"
          ("New message from " ++ senderName) with
      | .ok (ns, _) => ({ s1 with notifs := ns }, ⟨true, false, delivered⟩)
      | .error _ => (s1, ⟨true, true, delivered⟩)

/-! ## Matching engine (`user.controller.js` / `matching.service.js`) -/

/-- JS `Math.round` on the (non-negative) rational values arising here:
round half away from zero, i.e. `⌊q + 1/2⌋`. -/
def jsRound (q : ℚ) : ℤ :=
  ⌊q + 1 / 2⌋

/-- `calculateSkillMatchPercent`: with `i` the size of the intersection of the
two skill-id sets and `u = |S₁| + |S₂| − i`, return
`Math.round((i / u) * 100)` when `u > 0` and `0` otherwise. -/
def calculateSkillMatchPercent (s1 s2 : Finset String) : ℤ :=
  let i : ℕ := (s1 ∩ s2).card
  let u : ℕ := s1.card + s2.card - i
  if 0 < u then jsRound (((i : ℚ) / (u : ℚ)) * 100) else 0

/-- Modelled from the spec's words (for comparison with the source function):
`skillMatch = 100 × |S₁∩S₂| / |S₁∪S₂|` rounded to the nearest integer, and
`0` if both sets are empty. -/
def skillMatchSpec (s1 s2 : Finset String) : ℤ :=
  if s1 = ∅ ∧ s2 = ∅ then 0
  else jsRound (100 * ((s1 ∩ s2).card : ℚ) / ((s1 ∪ s2).card : ℚ))

/-! ## Concrete inputs used by counterexamples and witnesses -/

/-- Reputation store with every score `50` and an empty log. -/
def c1s0 : RepState := ⟨fun _ => 50, []⟩

/-- `c1s0` after rater `"12"` rates user `"u"` with `4` on project `"p"`. -/
def c1s1 : RepState :=
  ⟨Function.update (fun _ => 50) "u" 55, [⟨"u", "p", 5, "Rating from user 12: 4/5"⟩]⟩

/-- Reputation store with every score `40` and an empty log. -/
def c4s0 : RepState := ⟨fun _ => 40, []⟩

/-- Reputation store with every score `10` and an empty log. -/
def c5s0 : RepState := ⟨fun _ => 10, []⟩

/-- `c5s0` after rater `"a"` rates user `"u"` with `1` on project `"p"`:
incremented to `−5`, then clamped to `0`. -/
def c5s1 : RepState :=
  ⟨Function.update (Function.update (fun _ => 10) "u" (-5)) "u" 0,
   [⟨"u", "p", -15, "Rating from user a: 1/5"⟩]⟩

/-- `c5s1` after rater `"b"` rates user `"u"` with `1` on project `"p"`. -/
def c5s2 : RepState :=
  ⟨Function.update (Function.update c5s1.score "u" (-15)) "u" 0,
   c5s1.log ++ [⟨"u", "p", -15, "Rating from user b: 1/5"⟩]⟩

/-- Reputation store with every score `10` and an empty log. -/
def c10s0 : RepState := ⟨fun _ => 10, []⟩

/-- `c10s0` after rater `"a"` rates user `"u"` with `4` on project `"p"`. -/
def c10s1 : RepState :=
  ⟨Function.update (fun _ => 10) "u" 15, [⟨"u", "p", 5, "Rating from user a: 4/5"⟩]⟩

/-- Project store where every user already has `activeProjectCount = 2`. -/
def c2s0 : ProjState := ⟨fun _ => 2, [], []⟩

/-- Project store with one active project `"p1"` created by `"A"`, members
`A` (leader), `B`, `C`, each with `activeProjectCount = 1`. -/
def c3s0 : ProjState :=
  ⟨fun u => if u = "A" ∨ u = "B" ∨ u = "C" then 1 else 0,
   [⟨"p1", "A", .active, "T", "D", "W"⟩],
   [⟨"p1", "A", "leader"⟩, ⟨"p1", "B", "member"⟩, ⟨"p1", "C", "member"⟩]⟩

/-- Message table with one unread message from `"alice"` to `"bob"`. -/
def c6msgs0 : List ChatMsg := [⟨"m1", "alice", "bob", "hi", false⟩]

/-- `c6msgs0` with the message marked read. -/
def c6msgs1 : List ChatMsg := [⟨"m1", "alice", "bob", "hi", true⟩]

/-- Empty socket-store state. -/
def c7s0 : SockState := ⟨[], [], []⟩

/-- Empty hub (fresh process: everyone offline). -/
def c8h0 : Hub := ⟨[], [], []⟩

/-- Hub with the single live socket `"s9"` authenticated as `"u9"`. -/
def c8hw : Hub := ⟨[("u9", "s9")], [("s9", "u9")], ["s9"]⟩

/-- The hub after: `"s1"` connects and authenticates as `"u1"`, then `"s2"`
connects and authenticates as `"u1"`, then `"s1"` disconnects. -/
def c8final : Hub :=
  disconnectSock
    (authenticate (connectSock (authenticate (connectSock c8h0 "s1") "s1" "u1") "s2")
      "s2" "u1") "s1"

/-! ## Helper lemmas -/

theorem isPrefixOf_self_append (l t : List Char) : List.isPrefixOf l (l ++ t) = true := by
  induction l with
  | nil => simp
  | cons a as ih => simp [List.isPrefixOf, ih]

theorem strStartsWith_self_append (a b : String) : strStartsWith (a ++ b) a = true := by
  cases a with
  | mk da =>
    cases b with
    | mk db => simpa [strStartsWith, String.instAppend, String.append] using
        isPrefixOf_self_append da db

theorem jsMax_eq_max (a b : Int) : jsMax a b = max a b := by
  rw [jsMax, max_def]
  split <;> split <;> omega

theorem mapGet_mapSet_self (m : List (String × String)) (k v : String) :
    mapGet (mapSet m k v) k = some v := by
  induction m with
  | nil => simp [mapSet, mapGet]
  | cons e rest ih =>
    by_cases h : e.1 = k
    · simp [mapSet, mapGet, h]
    · simp only [mapSet, beq_eq_false_iff_ne.mpr h, if_neg]
      simpa [mapGet, List.find?, beq_eq_false_iff_ne.mpr h] using ih

theorem mapGet_mapSet_ne (m : List (String × String)) (k k' v : String) (h : k' ≠ k) :
    mapGet (mapSet m k' v) k = mapGet m k := by
  induction m with
  | nil => simp [mapSet, mapGet, List.find?, beq_eq_false_iff_ne.mpr h]
  | cons e rest ih =>
    by_cases he : e.1 = k'
    · simp [mapSet, mapGet, List.find?, he, beq_eq_false_iff_ne.mpr h]
    · simp only [mapSet, beq_eq_false_iff_ne.mpr he, if_neg]
      by_cases hk : e.1 = k
      · simp [mapGet, List.find?, hk]
      · simpa [mapGet, List.find?, beq_eq_false_iff_ne.mpr hk] using ih

theorem mapGet_mapDel_self (m : List (String × String)) (k : String) :
    mapGet (mapDel m k) k = none := by
  induction m with
  | nil => rfl
  | cons e rest ih =>
    by_cases h : e.1 = k
    · simpa [mapDel, h] using ih
    · simpa [mapDel, mapGet, List.find?, beq_eq_false_iff_ne.mpr h] using ih

/-- `find?` commutes with a map that leaves the searched-for predicate
invariant. -/
theorem find?_map_of_pred_invariant {α : Type} (l : List α) (p : α → Bool) (g : α → α)
    (hg : ∀ x, p (g x) = p x) (a : α) (h : l.find? p = some a) :
    (l.map g).find? p = some (g a) := by
  induction l with
  | nil => simp at h
  | cons x xs ih =>
    by_cases hx : p x = true
    · rw [List.find?_cons_of_pos _ hx] at h
      have hxa : x = a := by injection h
      rw [List.map_cons, List.find?_cons_of_pos _ ((hg x).trans hx), hxa]
    · rw [List.find?_cons_of_neg _ (by simp [hx])] at h
      rw [List.map_cons, List.find?_cons_of_neg _ (by simp [hg, hx])]
      exact ih h

theorem filter_eq_nil_of_not_mem_map {α : Type} (l : List α) (f : α → String) (u : String)
    (h : u ∉ l.map f) : l.filter (fun x => f x == u) = [] := by
  induction l with
  | nil => rfl
  | cons x xs ih =>
    simp only [List.map_cons, List.mem_cons, not_or] at h
    have hx : (f x == u) = false := beq_eq_false_iff_ne.mpr fun he => h.1 he.symm
    simp [List.filter, hx, ih h.2]

/-- In a list whose images under `f` are nodup, the elements mapping to the
image of a member form a one-element list. -/
theorem length_filter_eq_one_of_nodup {α : Type} (l : List α) (f : α → String) (x : α)
    (hn : (l.map f).Nodup) (hx : x ∈ l) :
    (l.filter fun y => f y == f x).length = 1 := by
  induction l with
  | nil => simp at hx
  | cons a as ih =>
    simp only [List.map_cons, List.nodup_cons] at hn
    rcases List.mem_cons.mp hx with rfl | hmem
    · have : as.filter (fun y => f y == f x) = [] :=
        filter_eq_nil_of_not_mem_map as f (f x) hn.1
      simp [List.filter, this]
    · have hne : (f a == f x) = false := by
        refine beq_eq_false_iff_ne.mpr fun he => hn.1 ?_
        exact he ▸ List.mem_map_of_mem f hmem
      simp [List.filter, hne, ih hn.2 hmem]

theorem effClamp_log (u : String) (s : RepState) : (effClamp u s).log = s.log := by
  rw [effClamp]
  split <;> rfl

theorem effClamp_score (u : String) (s : RepState) :
    (effClamp u s).score u = max 0 (s.score u) := by
  rw [effClamp, max_def]
  split
  · simp only [Function.update_same]
    split <;> omega
  · split <;> omega

/-- Characterization of a successful `rateTeammate` call: the rating passed
validation, the duplicate check found nothing, the final state is the three
writes applied in order, and the returned object carries the adjustment and
the doubly-adjusted `newReputation`. -/
theorem rateTeammate_ok_elim (s : RepState) (raterId ratedUserId projectId : String)
    (rating : Int) (s' : RepState) (res : RateResult)
    (h : rateTeammate s raterId ratedUserId projectId rating = .ok (s', res)) :
    1 ≤ rating ∧ rating ≤ 5 ∧
    hasExistingRating s.log raterId ratedUserId projectId = false ∧
    s' = effLog ratedUserId projectId (adjustmentFor rating)
      (ratingReason raterId rating)
      (effClamp ratedUserId (effIncrement ratedUserId (adjustmentFor rating) s)) ∧
    res = ⟨"Rating recorded successfully", adjustmentFor rating,
      jsMax 0 (s.score ratedUserId + adjustmentFor rating + adjustmentFor rating)⟩ := by
  rw [rateTeammate] at h
  split at h
  · cases h
  · next hv =>
    split at h
    · cases h
    · next hd =>
      refine ⟨by omega, by omega, by simpa using hd, ?_, ?_⟩
      · exact (congrArg (fun x => x.1) (Except.ok.inj h)).symm
      · exact (congrArg (fun x => x.2) (Except.ok.inj h)).symm

/-- After a successful rating by `raterId` for `(ratedUserId, projectId)`,
the duplicate check fires for the same triple. -/
theorem hasExistingRating_after (log : List RepEntry) (raterId ratedUserId projectId : String)
    (change : Int) (x : Int) :
    hasExistingRating
      (log ++ [⟨ratedUserId, projectId, change, ratingReason raterId x⟩])
      raterId ratedUserId projectId = true := by
  simp [hasExistingRating, List.any_append, ratingReason, strStartsWith_self_append]

/-! ## Claim theorems -/

/-- C5: for every `Rate(r, u, p, rating)` with an integer rating in `[1,5]`
that succeeds, the adjustment is exactly `−15` for rating `1`, `−5` for
ratings `2` and `3`, `+5` for rating `4`, `+10` for rating `5`, and the
stored `reputationScore` afterwards equals `max(0, previous + adjustment)`. -/
theorem rate_adjustment_table_and_floor (s : RepState) (r u p : String) (rating : Int)
    (s' : RepState) (res : RateResult)
    (h : rateTeammate s r u p rating = .ok (s', res)) :
    (rating = 1 → res.adjustment = -15) ∧
    ((rating = 2 ∨ rating = 3) → res.adjustment = -5) ∧
    (rating = 4 → res.adjustment = 5) ∧
    (rating = 5 → res.adjustment = 10) ∧
    s'.score u = max 0 (s.score u + res.adjustment) := by
  obtain ⟨h1, h2, hd, hs, hr⟩ := rateTeammate_ok_elim s r u p rating s' res h
  subst hs
  subst hr
  refine ⟨?_, ?_, ?_, ?_, ?_⟩
  · rintro rfl; rfl
  · rintro (rfl | rfl) <;> rfl
  · rintro rfl; rfl
  · rintro rfl; rfl
  · show (effLog u p _ _ _).score u = _
    rw [effLog]
    show (effClamp u _).score u = _
    rw [effClamp_score, effIncrement]
    simp [Function.update_same]

/-- C5 witness: a user starting at `reputationScore = 10` who receives two
ratings of `1` from distinct raters `"a"` and `"b"` gets adjustment `−15`
each time, and ends clamped at exactly `0`, never negative. -/
theorem rate_adjustment_table_and_floor_witness :
    rateTeammate c5s0 "a" "u" "p" 1 =
      .ok (c5s1, ⟨"Rating recorded successfully", -15, 0⟩) ∧
    rateTeammate c5s1 "b" "u" "p" 1 =
      .ok (c5s2, ⟨"Rating recorded successfully", -15, 0⟩) ∧
    c5s1.score "u" = max 0 (c5s0.score "u" + (-15)) ∧
    c5s2.score "u" = max 0 (c5s1.score "u" + (-15)) ∧
    c5s0.score "u" = 10 ∧ c5s1.score "u" = 0 ∧ c5s2.score "u" = 0 :=
  ⟨rfl, rfl,
   (rate_adjustment_table_and_floor c5s0 "a" "u" "p" 1 c5s1 _ rfl).2.2.2.2,
   (rate_adjustment_table_and_floor c5s1 "b" "u" "p" 1 c5s2 _ rfl).2.2.2.2,
   rfl, rfl, rfl⟩

/-- C10: for every successful `rateTeammate` call the returned
`newReputation` equals `max(0, s + 2·a)` where `s` is the score before the
call and `a` the computed adjustment — the adjustment is added a second time
on top of the already-incremented stored value — so it differs from the
persisted score `max(0, s + a)` whenever `a ≠ 0` and the two expressions are
not both clamped to `0`. -/
theorem rate_newReputation_double_adjustment (s : RepState) (r u p : String) (rating : Int)
    (s' : RepState) (res : RateResult)
    (h : rateTeammate s r u p rating = .ok (s', res)) :
    res.newReputation = max 0 (s.score u + 2 * adjustmentFor rating) ∧
    s'.score u = max 0 (s.score u + adjustmentFor rating) ∧
    (adjustmentFor rating ≠ 0 →
      ¬(max 0 (s.score u + 2 * adjustmentFor rating) = 0 ∧
        max 0 (s.score u + adjustmentFor rating) = 0) →
      res.newReputation ≠ s'.score u) := by
  obtain ⟨h1, h2, hd, hs, hr⟩ := rateTeammate_ok_elim s r u p rating s' res h
  subst hs
  subst hr
  have hstored : (effLog u p (adjustmentFor rating) (ratingReason r rating)
      (effClamp u (effIncrement u (adjustmentFor rating) s))).score u =
      max 0 (s.score u + adjustmentFor rating) := by
    show (effClamp u _).score u = _
    rw [effClamp_score, effIncrement]
    simp [Function.update_same]
  have hret : jsMax 0 (s.score u + adjustmentFor rating + adjustmentFor rating) =
      max 0 (s.score u + 2 * adjustmentFor rating) := by
    rw [jsMax_eq_max]
    ring_nf
  have key : ∀ v a : Int, a ≠ 0 →
      ¬(max 0 (v + 2 * a) = 0 ∧ max 0 (v + a) = 0) →
      max 0 (v + 2 * a) ≠ max 0 (v + a) := by
    intro v a ha hnz
    rw [max_def, max_def] at hnz ⊢
    split_ifs at hnz ⊢ <;> omega
  refine ⟨hret, hstored, fun ha hnz => ?_⟩
  show jsMax 0 (s.score u + adjustmentFor rating + adjustmentFor rating) ≠ _
  rw [hret, hstored]
  exact key (s.score u) (adjustmentFor rating) ha hnz

/-- C10 witness: a user at score `10` rated `4` (adjustment `+5`) has
persisted score `15` but the call returns `newReputation = 20`. -/
theorem rate_newReputation_double_adjustment_witness :
    rateTeammate c10s0 "a" "u" "p" 4 =
      .ok (c10s1, ⟨"Rating recorded successfully", 5, 20⟩) ∧
    c10s1.score "u" = 15 ∧
    (20 : Int) ≠ c10s1.score "u" :=
  ⟨rfl, rfl,
   (rate_newReputation_double_adjustment c10s0 "a" "u" "p" 4 c10s1 _ rfl).2.2
     (by decide) (by decide)⟩

/-- C1 counterexample: after rater `"12"` successfully rates `("u", "p")`,
a first-ever rating by the DIFFERENT rater `"1"` on the same user and project
is rejected with the duplicate-rating conflict, even though the log holds no
entry recorded for rater `"1"` (no reason of the form
`` `Rating from user 1: _/5` ``): uniqueness is not enforced structurally on
the `(raterId, ratedUserId, projectId)` triple, but by prefix matching on the
free-text reason, which collides on rater-id prefixes. -/
theorem rate_duplicate_check_not_structural :
    rateTeammate c1s0 "12" "u" "p" 4 =
      .ok (c1s1, ⟨"Rating recorded successfully", 5, 60⟩) ∧
    rateTeammate c1s1 "1" "u" "p" 5 = .error .conflict ∧
    (c1s1.log.all fun e => !(strStartsWith e.reason "Rating from user 1:")) = true :=
  ⟨rfl, rfl, by decide⟩

/-- C1 amended: after a successful `Rate(r, u, p, x)`, any later
`Rate(r, u, p, y)` with an in-range rating fails with `Conflict`, and an
execution of that failing call performs none of the three store writes, so
the rated user's score and the log stay unchanged; but the uniqueness is
enforced by matching the `` `Rating from user ${raterId}` `` prefix of the
free-text reason, not structurally on the triple (see the counterexample). -/
theorem rate_duplicate_blocked (s : RepState) (r u p : String) (x y : Int)
    (s' : RepState) (res : RateResult)
    (h : rateTeammate s r u p x = .ok (s', res))
    (h1 : 1 ≤ y) (h2 : y ≤ 5) :
    rateTeammate s' r u p y = .error .conflict ∧
    ∀ k, rateTeammateUpTo k s' r u p y = s' := by
  obtain ⟨_, _, _, hs, _⟩ := rateTeammate_ok_elim s r u p x s' res h
  have hlog : s'.log = s.log ++ [⟨u, p, adjustmentFor x, ratingReason r x⟩] := by
    rw [hs]
    show (effClamp u _).log ++ _ = _
    rw [effClamp_log]
    rfl
  have hdup : hasExistingRating s'.log r u p = true := by
    rw [hlog]
    exact hasExistingRating_after s.log r u p (adjustmentFor x) x
  constructor
  · rw [rateTeammate]
    rw [if_neg (by omega), hdup]
    rfl
  · intro k
    rw [rateTeammateUpTo]
    rw [if_neg (by omega), hdup]
    rfl

/-- C1 amended, witness: rater `"12"` rating the same `("u", "p")` again (with
a different value) is rejected with `Conflict` and no store write happens. -/
theorem rate_duplicate_blocked_witness :
    rateTeammate c1s1 "12" "u" "p" 2 = .error .conflict ∧
    rateTeammateUpTo 1 c1s1 "12" "u" "p" 2 = c1s1 :=
  ⟨(rate_duplicate_blocked c1s0 "12" "u" "p" 4 2 c1s1
      ⟨"Rating recorded successfully", 5, 60⟩ rfl (by norm_num) (by norm_num)).1,
   (rate_duplicate_blocked c1s0 "12" "u" "p" 4 2 c1s1
      ⟨"Rating recorded successfully", 5, 60⟩ rfl (by norm_num) (by norm_num)).2 1⟩

/-- C4 counterexample: an execution of `rateTeammate(r, u, p, 5)` on a store
where `u` has score `40` that is interrupted after the score update
(`prisma.user.update`) and before `prisma.reputationLog.create` leaves the
score adjusted to `50` with no log entry at all — the score mutation and the
log append are two separate commits, not one atomic unit. -/
theorem rate_not_atomic :
    (rateTeammateUpTo 1 c4s0 "r" "u" "p" 5).score "u" = 50 ∧
    c4s0.score "u" = 40 ∧
    (rateTeammateUpTo 1 c4s0 "r" "u" "p" 5).log = [] :=
  ⟨rfl, rfl, rfl⟩

/-- C4 amended: an uninterrupted `rateTeammate` run applies both the score
mutation and the log append (final score `max(0, s + a)`, log extended by the
matching entry); but the two are separate store writes: an execution
interrupted after the score update and before the log append leaves the
score already adjusted by `a` while the log is unchanged. -/
theorem rate_effects_split (s : RepState) (r u p : String) (rating : Int)
    (h1 : 1 ≤ rating) (h2 : rating ≤ 5)
    (h3 : hasExistingRating s.log r u p = false) :
    (rateTeammateUpTo 3 s r u p rating).log =
      s.log ++ [⟨u, p, adjustmentFor rating, ratingReason r rating⟩] ∧
    (rateTeammateUpTo 3 s r u p rating).score u =
      max 0 (s.score u + adjustmentFor rating) ∧
    (rateTeammateUpTo 1 s r u p rating).score u = s.score u + adjustmentFor rating ∧
    (rateTeammateUpTo 1 s r u p rating).log = s.log := by
  have hk : ∀ k, rateTeammateUpTo k s r u p rating =
      (let adjustment := adjustmentFor rating
       let s1 := effIncrement u adjustment s
       let s2 := effClamp u s1
       let s3 := effLog u p adjustment (ratingReason r rating) s2
       match k with
       | 0 => s
       | 1 => s1
       | 2 => s2
       | _ => s3) := by
    intro k
    rw [rateTeammateUpTo, if_neg (by omega), if_neg (by simp [h3])]
  rw [hk 3, hk 1]
  refine ⟨?_, ?_, ?_, ?_⟩
  · show (effClamp u _).log ++ _ = _
    rw [effClamp_log]
    rfl
  · show (effClamp u _).score u = _
    rw [effClamp_score, effIncrement]
    simp [Function.update_same]
  · show Function.update _ _ _ _ = _
    simp [Function.update_same]
  · rfl

/-- C4 amended, witness: on `c4s0` with rating `5`, the full run appends the
log entry and stores `50`, while the run interrupted after the first write
has score `50` but the unchanged empty log. -/
theorem rate_effects_split_witness :
    (rateTeammateUpTo 3 c4s0 "r" "u" "p" 5).log =
      c4s0.log ++ [⟨"u", "p", 10, ratingReason "r" 5⟩] ∧
    (rateTeammateUpTo 3 c4s0 "r" "u" "p" 5).score "u" =
      max 0 (c4s0.score "u" + 10) ∧
    (rateTeammateUpTo 1 c4s0 "r" "u" "p" 5).score "u" = c4s0.score "u" + 10 ∧
    (rateTeammateUpTo 1 c4s0 "r" "u" "p" 5).log = c4s0.log :=
  rate_effects_split c4s0 "r" "u" "p" 5 (by norm_num) (by norm_num) rfl

/-- C2: for every user whose `activeProjectCount` is at least 2, both
`CreateProject` (with well-formed details) and `JoinProject` (on any project
id) fail with the capacity error and return with the state exactly as it was:
no project, no membership, and no count change. -/
theorem cap_blocks_create_and_join (s : ProjState) (u : String)
    (title description domain newProjectId projectId : String)
    (hc : 2 ≤ s.activeProjectCount u)
    (ht : title ≠ "") (hde : description ≠ "") (hdo : domain ≠ "")
    (hp : projectId ≠ "") :
    createProject s u title description domain newProjectId =
      (s, some .capacityExceeded) ∧
    joinProject s u projectId = (s, some .capacityExceeded) := by
  constructor
  · rw [createProject, if_neg (by simp [ht, hde, hdo]), if_pos hc]
  · rw [joinProject, if_neg hp, if_pos hc]

/-- C2 witness: a user at the cap (`activeProjectCount = 2`) is rejected with
the capacity error by both operations, the store untouched. -/
theorem cap_blocks_create_and_join_witness :
    2 ≤ c2s0.activeProjectCount "x" ∧
    createProject c2s0 "x" "T" "D" "W" "n1" = (c2s0, some .capacityExceeded) ∧
    joinProject c2s0 "x" "p9" = (c2s0, some .capacityExceeded) :=
  ⟨by norm_num [c2s0],
   (cap_blocks_create_and_join c2s0 "x" "T" "D" "W" "n1" "p9"
     (by norm_num [c2s0]) (by decide) (by decide) (by decide) (by decide)).1,
   (cap_blocks_create_and_join c2s0 "x" "T" "D" "W" "n1" "p9"
     (by norm_num [c2s0]) (by decide) (by decide) (by decide) (by decide)).2⟩

/-- C3: when the creator of an existing Active project completes it, the
whole effect is the single `$transaction`: committed, it sets the status to
Completed and decrements `activeProjectCount` by exactly one for every
current member (member rows being unique per user) and for nobody else;
interrupted before commit, the state is exactly the pre-call state — no
partially decremented state is ever produced. -/
theorem complete_project_atomic (s : ProjState) (requester projectId : String) (p : Project)
    (hp : projectId ≠ "")
    (hfind : s.projects.find? (fun q => q.id == projectId) = some p)
    (hcr : p.createdBy = requester)
    (hact : p.status = .active)
    (hnodup : ((s.members.filter fun m => m.projectId == projectId).map
      fun m => m.userId).Nodup) :
    completeProjectRun s requester projectId false = (completeTxn s projectId, none) ∧
    ((completeTxn s projectId).projects.find? fun q => q.id == projectId) =
      some { p with status := .completed } ∧
    (∀ m ∈ s.members.filter fun m => m.projectId == projectId,
      (completeTxn s projectId).activeProjectCount m.userId =
        s.activeProjectCount m.userId - 1) ∧
    (∀ u, (∀ m ∈ s.members.filter fun m => m.projectId == projectId, m.userId ≠ u) →
      (completeTxn s projectId).activeProjectCount u = s.activeProjectCount u) ∧
    completeProjectRun s requester projectId true = (s, some .serverError) := by
  have hrun : ∀ b : Bool, completeProjectRun s requester projectId b =
      if b then (s, some .serverError) else (completeTxn s projectId, none) := by
    intro b
    rw [completeProjectRun, if_neg hp, hfind]
    show (if p.createdBy ≠ requester then (s, some ProjErr.forbidden)
      else if p.status = PStatus.completed then (s, some ProjErr.alreadyCompleted)
      else if b then (s, some ProjErr.serverError) else (completeTxn s projectId, none)) = _
    rw [if_neg (fun hne : p.createdBy ≠ requester => hne hcr), if_neg (by simp [hact])]
  refine ⟨hrun false, ?_, ?_, ?_, hrun true⟩
  · have hg : ∀ q : Project,
        ((if q.id == projectId then { q with status := PStatus.completed } else q).id ==
          projectId) = (q.id == projectId) := by
      intro q
      by_cases hq : (q.id == projectId) = true <;> simp [hq]
    have hm := find?_map_of_pred_invariant s.projects (fun q => q.id == projectId)
      (fun q => if q.id == projectId then { q with status := PStatus.completed } else q)
      hg p hfind
    have hpid : (p.id == projectId) = true := by simpa using List.find?_some hfind
    rw [show (completeTxn s projectId).projects = s.projects.map
        (fun q => if q.id == projectId then { q with status := PStatus.completed } else q)
      from rfl, hm]
    simp [hpid]
  · intro m hm
    show s.activeProjectCount m.userId - _ = _
    rw [length_filter_eq_one_of_nodup
      (s.members.filter fun m => m.projectId == projectId) (fun m => m.userId) m hnodup hm]
    rfl
  · intro u hu
    show s.activeProjectCount u - _ = _
    rw [filter_eq_nil_of_not_mem_map
      (s.members.filter fun m => m.projectId == projectId) (fun m => m.userId) u (by
      intro hmem
      obtain ⟨m, hm, hmu⟩ := List.mem_map.mp hmem
      exact hu m hm hmu)]
    simp

/-- C3 witness: the spec scenario — project `"p1"` with members `{A, B, C}`
each at `activeProjectCount = 1`: committed completion yields status
Completed and all three counts `0`; the interrupted run leaves the exact
initial state. -/
theorem complete_project_atomic_witness :
    completeProjectRun c3s0 "A" "p1" false = (completeTxn c3s0 "p1", none) ∧
    (completeTxn c3s0 "p1").activeProjectCount "A" = c3s0.activeProjectCount "A" - 1 ∧
    (completeTxn c3s0 "p1").activeProjectCount "B" = c3s0.activeProjectCount "B" - 1 ∧
    (completeTxn c3s0 "p1").activeProjectCount "C" = c3s0.activeProjectCount "C" - 1 ∧
    (completeTxn c3s0 "p1").activeProjectCount "A" = 0 ∧
    (completeTxn c3s0 "p1").activeProjectCount "B" = 0 ∧
    (completeTxn c3s0 "p1").activeProjectCount "C" = 0 ∧
    ((completeTxn c3s0 "p1").projects.find? fun q => q.id == "p1") =
      some ⟨"p1", "A", .completed, "T", "D", "W"⟩ ∧
    completeProjectRun c3s0 "A" "p1" true = (c3s0, some .serverError) := by
  have main := complete_project_atomic c3s0 "A" "p1" ⟨"p1", "A", .active, "T", "D", "W"⟩
    (by decide) rfl rfl rfl (by decide)
  exact ⟨main.1,
    main.2.2.1 ⟨"p1", "A", "leader"⟩ (by decide),
    main.2.2.1 ⟨"p1", "B", "member"⟩ (by decide),
    main.2.2.1 ⟨"p1", "C", "member"⟩ (by decide),
    rfl, rfl, rfl, main.2.1, main.2.2.2.2⟩

/-- C6 counterexample: no message in the store has `"eve"` as receiver, yet
`markAsRead("m1", "eve")` succeeds and sets the message's `isRead` flag —
the handler's `where` clause is the message id alone, so a non-receiver both
avoids the NotFound failure and mutates the flag. -/
theorem markAsRead_ignores_receiver :
    (c6msgs0.all fun m => !(m.receiverId == "eve")) = true ∧
    markAsRead c6msgs0 [] "m1" "eve" = (c6msgs1, .readConfirmed none) :=
  ⟨by decide, rfl⟩

/-- C6 amended: `MarkRead(messageId, readerId)` is independent of the reader;
it fails (with the error emit, store unchanged) exactly when no message with
id `messageId` exists at all, and when one exists it sets that message's
`isRead` to true whoever the caller is — the receiver is never checked. -/
theorem markAsRead_by_id_only (msgs : List ChatMsg) (online : List (String × String))
    (messageId r1 r2 : String) :
    markAsRead msgs online messageId r1 = markAsRead msgs online messageId r2 ∧
    ((msgs.all fun m => !(m.id == messageId)) = true →
      markAsRead msgs online messageId r1 = (msgs, .errorEmitted)) ∧
    (∀ m, msgs.find? (fun x => x.id == messageId) = some m →
      ((markAsRead msgs online messageId r1).1.find? fun x => x.id == messageId) =
        some { m with isRead := true } ∧
      (markAsRead msgs online messageId r1).2 ≠ .errorEmitted) := by
  refine ⟨rfl, ?_, ?_⟩
  · intro h
    have hnone : msgs.find? (fun x => x.id == messageId) = none := by
      rw [List.find?_eq_none]
      intro x hx
      have := List.all_eq_true.mp h x hx
      simp at this ⊢
      exact this
    rw [markAsRead, hnone]
  · intro m hm
    have hg : ∀ x : ChatMsg,
        ((if x.id == messageId then { x with isRead := true } else x).id == messageId) =
          (x.id == messageId) := by
      intro x
      by_cases hx : (x.id == messageId) = true <;> simp [hx]
    have hmid : (m.id == messageId) = true := by simpa using List.find?_some hm
    rw [markAsRead, hm]
    constructor
    · have := find?_map_of_pred_invariant msgs (fun x => x.id == messageId)
        (fun x => if x.id == messageId then { x with isRead := true } else x) hg m hm
      rw [show ((msgs.map fun x => if x.id == messageId then { x with isRead := true }
          else x, MarkOutcome.readConfirmed (if (mapGet online m.senderId).isSome
          then some m.senderId else none)).1) = msgs.map
          (fun x => if x.id == messageId then { x with isRead := true } else x) from rfl,
        this]
      simp [hmid]
    · simp

/-- C6 amended, witness: a missing message id yields the error with the store
unchanged; for the existing message `"m1"`, a `markAsRead` by `"bob"` ends
with the stored message read. -/
theorem markAsRead_by_id_only_witness :
    markAsRead c6msgs0 [] "zz" "bob" = (c6msgs0, .errorEmitted) ∧
    ((markAsRead c6msgs0 [] "m1" "bob").1.find? fun x => x.id == "m1") =
      some ⟨"m1", "alice", "bob", "hi", true⟩ :=
  ⟨(markAsRead_by_id_only c6msgs0 [] "zz" "bob" "bob").2.1 (by decide),
   ((markAsRead_by_id_only c6msgs0 [] "m1" "bob" "bob").2.2
      ⟨"m1", "alice", "bob", "hi", false⟩ rfl).1⟩

/-- C7 counterexample: with the notification store failing, the socket-level
`createNotification` re-raises the error, and a `sendMessage` call persists
the message and sends the ack but then ALSO emits the `'error'` event to the
sender — the primary operation does report an error to the client, contrary
to the claim. -/
theorem notification_failure_raises :
    createNotificationSock false [] "bob" "message_received" "New message from Alice" =
      .error "Notification creation error" ∧
    sendMessage c7s0 (some "alice") "bob" "hi" false "m1" "Alice" =
      (⟨[⟨"m1", "alice", "bob", "hi", false⟩], [], []⟩, ⟨true, true, none⟩) :=
  ⟨rfl, rfl⟩

/-- C7 amended: the controller-level `createNotification` does suppress a
store failure (it logs and returns `null`, state unchanged); but the
socket-level one used by `sendMessage` re-throws, so a message send whose
notification persistence fails keeps the persisted message and the ack while
additionally emitting an error event to the sender. -/
theorem notification_failure_isolated :
    (∀ (notifs : List Notif) (userId type title message : String),
      createNotificationCtrl false notifs userId type title message = (notifs, none)) ∧
    (∀ (s : SockState) (sid receiverId content newMessageId senderName : String),
      receiverId ≠ "" → jsTrim content ≠ "" →
      (sendMessage s (some sid) receiverId content false newMessageId senderName).1.messages =
        s.messages ++ [⟨newMessageId, sid, receiverId, jsTrim content, false⟩] ∧
      (sendMessage s (some sid) receiverId content false newMessageId senderName).2.ackSent =
        true ∧
      (sendMessage s (some sid) receiverId content false newMessageId senderName).2.errorSent =
        true) := by
  refine ⟨fun _ _ _ _ _ => rfl, fun s sid receiverId content newMessageId senderName h1 h2 => ?_⟩
  simp only [sendMessage]
  rw [if_neg (by simp [h1, h2])]
  exact ⟨rfl, rfl, rfl⟩

/-- C7 amended, witness: concrete send from `"alice"` to `"bob"` with a
failing notification store — message persisted, ack sent, error also sent;
the controller-level helper returns `null` and leaves the store unchanged. -/
theorem notification_failure_isolated_witness :
    createNotificationCtrl false [] "bob" "message_received" "T" "M" = ([], none) ∧
    (sendMessage c7s0 (some "alice") "bob" "hi" false "m1" "Alice").1.messages =
      c7s0.messages ++ [⟨"m1", "alice", "bob", jsTrim "hi", false⟩] ∧
    (sendMessage c7s0 (some "alice") "bob" "hi" false "m1" "Alice").2.ackSent = true ∧
    (sendMessage c7s0 (some "alice") "bob" "hi" false "m1" "Alice").2.errorSent = true :=
  ⟨notification_failure_isolated.1 [] "bob" "message_received" "T" "M",
   notification_failure_isolated.2 c7s0 "alice" "bob" "hi" "m1" "Alice"
     (by decide) (by decide)⟩

theorem disconnectSock_of_user (h : Hub) (sid u : String)
    (hsu : mapGet h.socketUser sid = some u) :
    disconnectSock h sid =
      ⟨mapDel h.onlineUsers u, h.socketUser, h.live.filter fun x => !(x == sid)⟩ := by
  rw [disconnectSock, hsu]

theorem deliver_of_offline (h : Hub) (u : String) (ho : mapGet h.onlineUsers u = none) :
    deliver h u = [] := by
  rw [deliver, ho]

/-- C8 counterexample: user `"u1"` authenticates on connection `"s1"`, then on
a new connection `"s2"`, then `"s1"` disconnects.  Afterwards `"s2"` is still
live and still authenticated as `"u1"`, but the registry no longer maps
`"u1"` to ANY connection and `Deliver("u1", e)` reaches no connection —
the stale connection's disconnect lost the newer registration. -/
theorem disconnect_loses_new_registration :
    mapGet c8final.onlineUsers "u1" = none ∧
    deliver c8final "u1" = [] ∧
    c8final.live = ["s2"] ∧
    mapGet c8final.socketUser "s2" = some "u1" :=
  ⟨rfl, rfl, rfl, rfl⟩

/-- C8 amended: the `disconnect` handler deletes its socket's user from the
registry unconditionally.  In every sequence where `u` authenticates on `c1`
and then on `c2` and then `c1` disconnects, the registry afterwards maps `u`
to no connection and `Deliver(u, e)` reaches no connection (the second
registration is lost); and after the disconnect of any connection
authenticated as `u` — in particular `u`'s only live connection —
`Deliver(u, e)` reaches no connection. -/
theorem disconnect_unregisters_unconditionally (h : Hub) (c1 c2 u : String) :
    (mapGet (disconnectSock (authenticate (authenticate h c1 u) c2 u) c1).onlineUsers u =
       none ∧
     deliver (disconnectSock (authenticate (authenticate h c1 u) c2 u) c1) u = []) ∧
    (∀ sid u', mapGet h.socketUser sid = some u' →
      deliver (disconnectSock h sid) u' = []) := by
  have hc1 : mapGet (authenticate (authenticate h c1 u) c2 u).socketUser c1 = some u := by
    show mapGet (mapSet (mapSet h.socketUser c1 u) c2 u) c1 = some u
    by_cases hcc : c2 = c1
    · subst hcc
      rw [mapGet_mapSet_self]
    · rw [mapGet_mapSet_ne _ _ _ _ hcc, mapGet_mapSet_self]
  have hd := disconnectSock_of_user (authenticate (authenticate h c1 u) c2 u) c1 u hc1
  refine ⟨?_, ?_⟩
  · rw [hd]
    exact ⟨mapGet_mapDel_self _ u, deliver_of_offline _ u (mapGet_mapDel_self _ u)⟩
  · intro sid u' hsu
    rw [disconnectSock_of_user h sid u' hsu]
    exact deliver_of_offline _ u' (mapGet_mapDel_self _ u')

/-- C8 amended, witness: the concrete reconnect sequence on the empty hub
loses `"u1"`'s registration, and disconnecting `"u9"`'s only live connection
in `c8hw` leaves `Deliver("u9", e)` with no connection to reach. -/
theorem disconnect_unregisters_unconditionally_witness :
    mapGet (disconnectSock (authenticate (authenticate c8h0 "s1" "u1") "s2" "u1")
      "s1").onlineUsers "u1" = none ∧
    deliver (disconnectSock c8hw "s9") "u9" = [] :=
  ⟨(disconnect_unregisters_unconditionally c8h0 "s1" "s2" "u1").1.1,
   (disconnect_unregisters_unconditionally c8hw "s1" "s2" "u1").2 "s9" "u9" rfl⟩

/-- C9 counterexample: a candidate whose skill set is identical to the
requester's but EMPTY gets `skillMatch = 0` (the `union > 0` guard), not
`100` — the two conjuncts of the claim contradict each other at empty sets,
and the code follows the `0` branch. -/
theorem skillMatch_empty_identical_not_100 :
    (∅ : Finset String) = (∅ : Finset String) ∧
    calculateSkillMatchPercent ∅ ∅ = 0 ∧
    calculateSkillMatchPercent ∅ ∅ ≠ 100 :=
  ⟨rfl, by decide, by decide⟩

/-- C9 amended: `calculateSkillMatchPercent` computes exactly the spec's
`100 × |S₁∩S₂| / |S₁∪S₂|` rounded to the nearest integer (half up), with `0`
when both sets are empty; and every candidate whose skill set is identical to
the requester's and NONEMPTY has `skillMatch = 100`. -/
theorem skillMatch_jaccard (s1 s2 : Finset String) :
    calculateSkillMatchPercent s1 s2 = skillMatchSpec s1 s2 ∧
    (s1 = s2 → s1.Nonempty → calculateSkillMatchPercent s1 s2 = 100) := by
  have hu : s1.card + s2.card - (s1 ∩ s2).card = (s1 ∪ s2).card := by
    have := Finset.card_union_add_card_inter s1 s2
    omega
  have hround : jsRound (100 : ℚ) = 100 := by
    rw [jsRound, Int.floor_eq_iff]
    norm_num
  constructor
  · rw [calculateSkillMatchPercent, skillMatchSpec]
    simp only [hu]
    by_cases hc : 0 < (s1 ∪ s2).card
    · rw [if_pos hc, if_neg (by
        rintro ⟨rfl, rfl⟩
        simp at hc)]
      congr 1
      ring
    · have hun : s1 ∪ s2 = ∅ := by
        rw [← Finset.card_eq_zero]
        omega
      rw [if_neg hc, if_pos (Finset.union_eq_empty.mp hun)]
  · rintro rfl hne
    have hcard : 0 < s1.card := Finset.card_pos.mpr hne
    rw [calculateSkillMatchPercent]
    simp only [Finset.inter_self, Finset.union_self, Nat.add_sub_cancel]
    rw [if_pos (by omega)]
    rw [div_self (by positivity : ((s1.card : ℚ)) ≠ 0), one_mul]
    exact hround

/-- C9 amended, witness: the source function agrees with the spec formula on
`{a, b}` versus `{b, c}`, and an identical nonempty skill set scores `100`. -/
theorem skillMatch_jaccard_witness :
    calculateSkillMatchPercent {"a", "b"} {"b", "c"} =
      skillMatchSpec {"a", "b"} {"b", "c"} ∧
    calculateSkillMatchPercent {"a"} {"a"} = 100 :=
  ⟨(skillMatch_jaccard {"a", "b"} {"b", "c"}).1,
   (skillMatch_jaccard {"a"} {"a"}).2 rfl ⟨"a", by decide⟩⟩

end SkillSync
